import Mathlib

/-!
# Lock handler and emitter setup actions of the emulator plugin

A shallow embedding of `pkg/devices/lock.go` and `pkg/actions.go`.

Go maps are reference values.  `deviceState` has type
`map[string]map[string]interface{}`: the outer map sends a device GUID to a
*reference* to an inner map, and `dState["lockStatus"] = v` mutates the inner
map object in place, whichever outer entries (or goroutine closures) still
hold it.  The embedding therefore keeps an explicit heap of inner maps:

* `State.deviceState` : the outer map, GUID to reference;
* `State.heap`        : the inner map objects, by reference;
* `State.next`        : the next reference a map literal allocates;
* `State.pending`     : the goroutines started by `pulseUnlock` that are still
  asleep, each with the variables its closure captured.

The mutex `mux` makes every handler body and every goroutine body atomic, so
an execution is a sequence of such atomic steps.
-/

namespace LockEmu

/-! ## Data model -/

/-- Values of Go type `interface{}` stored in an inner map. -/
inductive Value where
  | str (s : String)
  | num (n : Int)
  | bool (b : Bool)
deriving DecidableEq, Repr

/-- An inner map `map[string]interface{}`.  References to inner map objects
are natural numbers. -/
abbrev Record := String → Option Value

/-- The part of `sdk.Device` the handlers and actions use: `GUID()` and `GetID()`. -/
structure Device where
  guid : String
  id : String
deriving DecidableEq, Repr

/-- A goroutine started by `pulseUnlock` (lock.go 95-106) that has not fired
yet.  Its closure captured `device` and the pair `dState, ok` of line 72:
`dState = some r` stands for `ok = true` with `dState` the map object `r`,
`dState = none` for `ok = false`.  `sleepSeconds` is the argument of
`time.Sleep`. -/
structure Deferred where
  guid : String
  dState : Option Nat
  sleepSeconds : Nat
deriving DecidableEq, Repr

/-- The package state the lock handlers act on. -/
structure State where
  deviceState : String → Option Nat
  heap : Nat → Record
  next : Nat
  pending : List Deferred

/-- Point update of a map. -/
def upd {α β : Type} [DecidableEq α] (m : α → β) (a : α) (b : β) : α → β :=
  fun x => if x = a then b else m x

/-- The state at program start: `deviceState` is empty, no goroutine is pending. -/
def State.empty : State :=
  { deviceState := fun _ => none, heap := fun _ _ => none, next := 0, pending := [] }

/-! ## Constants (lock.go 11-20) -/

def statusLock : String := "locked"
def statusUnlock : String := "unlocked_electrically"
def actionLock : String := "lock"
def actionUnlock : String := "unlock"
def actionPulseUnlock : String := "pulseUnlock"

/-! ## lockRead (lock.go 37-64) -/

/-- What a call of `lockRead` yields: a run-time panic (failed type
assertion), the error of `MakeReading`, or the slice of readings. -/
inductive ReadResult (R E : Type) where
  | panic
  | error (e : E)
  | ok (readings : List R)
deriving DecidableEq, Repr

/-- Lines 41-49: the local `lockStatus` after the lookup.  It stays `""` when
the device has no record or the record has no `lockStatus` key; the type
assertion `.(string)` panics (`none`) on a value that is not a string. -/
def storedLockStatus (s : State) (device : Device) : Option String :=
  match s.deviceState device.guid with
  | none => some ""
  | some r =>
    match s.heap r "lockStatus" with
    | none => some ""
    | some (Value.str v) => some v
    | some _ => none

/-- Lines 56-63: `device.GetOutput("lock.status").MakeReading(lockStatus)` and
the returned slice.  `MakeReading` belongs to the SDK and is a parameter
`mk output value`. -/
def reportStatus {R E : Type} (mk : String → String → Except E R) (lockStatus : String) :
    ReadResult R E :=
  match mk "lock.status" lockStatus with
  | Except.error e => ReadResult.error e
  | Except.ok reading => ReadResult.ok [reading]

/-- The read handler, as a state transformer: result and state afterwards. -/
def lockRead {R E : Type} (mk : String → String → Except E R) (s : State) (device : Device) :
    ReadResult R E × State :=
  match storedLockStatus s device with
  | none => (ReadResult.panic, s)
  | some lockStatus =>
    let lockStatus := if lockStatus = "" then statusLock else lockStatus
    (reportStatus mk lockStatus, s)

/-! ## lockWrite (lock.go 68-112) -/

/-- The map literal `map[string]interface{}{"lockStatus": status}`. -/
def newRecord (status : String) : Record :=
  fun k => if k = "lockStatus" then some (Value.str status) else none

/-- The statement `deviceState[guid] = map[string]interface{}{"lockStatus": status}`:
allocates a new inner map and stores its reference. -/
def storeNew (s : State) (guid : String) (status : String) : State :=
  { s with
    deviceState := upd s.deviceState guid (some s.next)
    heap := upd s.heap s.next (newRecord status)
    next := s.next + 1 }

/-- The statement `dState["lockStatus"] = status` on the map object `r`. -/
def assignStatus (s : State) (r : Nat) (status : String) : State :=
  { s with heap := upd s.heap r (upd (s.heap r) "lockStatus" (some (Value.str status))) }

/-- The block `if !ok { deviceState[guid] = ... } else { dState["lockStatus"] = ... }`
(lines 76-80, 82-86, 89-93 and 101-105), for the given `dState, ok`. -/
def setLockStatus (s : State) (guid : String) (dState : Option Nat) (status : String) : State :=
  match dState with
  | none => storeNew s guid status
  | some r => assignStatus s r status

/-- The write handler: the returned error (`none` is `nil`) and the state
afterwards.  `pulseUnlock` starts a goroutine, recorded in `pending` with the
`dState, ok` read at line 72. -/
def lockWrite (s : State) (device : Device) (action : String) : Option String × State :=
  let dState := s.deviceState device.guid
  if action = actionLock then
    (none, setLockStatus s device.guid dState statusLock)
  else if action = actionUnlock then
    (none, setLockStatus s device.guid dState statusUnlock)
  else if action = actionPulseUnlock then
    let s1 := setLockStatus s device.guid dState statusUnlock
    (none, { s1 with pending := s1.pending ++ [⟨device.guid, dState, 5⟩] })
  else
    (some ("unsupported command for status action: " ++ action), s)

/-- The body of the goroutine after its sleep (lines 98-105), with the
captured `dState, ok`. -/
def fireDeferred (s : State) (t : Deferred) : State :=
  setLockStatus s t.guid t.dState statusLock

/-- The pending goroutine at position `i` wakes up and runs; nothing happens
when there is none. -/
def fire (s : State) (i : Nat) : State :=
  match s.pending.get? i with
  | none => s
  | some t => fireDeferred { s with pending := s.pending.eraseIdx i } t

/-! ## Executions -/

/-- One atomic step of the lock machine. -/
inductive Op where
  | write (device : Device) (action : String)
  | read (device : Device)
  | fire (i : Nat)
deriving DecidableEq, Repr

/-- The state after one atomic step. -/
def step {R E : Type} (mk : String → String → Except E R) (s : State) : Op → State
  | Op.write device action => (lockWrite s device action).2
  | Op.read device => (lockRead mk s device).2
  | Op.fire i => fire s i

/-- The state after a sequence of atomic steps, left to right. -/
def run {R E : Type} (mk : String → String → Except E R) (s : State) (ops : List Op) : State :=
  ops.foldl (step mk) s

/-- The record the store holds for a device, if any. -/
def recordOf (s : State) (device : Device) : Option Record :=
  (s.deviceState device.guid).map s.heap

/-- A `MakeReading` that always succeeds and keeps output name and value. -/
def plainReading (output value : String) : Except String (String × String) :=
  Except.ok (output, value)

/-- Two devices with different GUIDs, for concrete executions. -/
def devA : Device := ⟨"guid-a", "id-a"⟩
def devB : Device := ⟨"guid-b", "id-b"⟩

/-- The device an atomic step writes to, if any: the written device, or the
device captured by the goroutine that fires. -/
def Op.target (s : State) : Op → Option String
  | Op.write device _ => some device.guid
  | Op.read _ => none
  | Op.fire i => (s.pending.get? i).map Deferred.guid

/-- None of the steps of `ops`, run from `s`, writes to the device `guid`. -/
def Untouched {R E : Type} (mk : String → String → Except E R) (guid : String) :
    State → List Op → Prop
  | _, [] => True
  | s, op :: rest => op.target s ≠ some guid ∧ Untouched mk guid (step mk s op) rest

/-- `Untouched` is decidable, step by step. -/
def Untouched.dec {R E : Type} (mk : String → String → Except E R) (guid : String) :
    (s : State) → (ops : List Op) → Decidable (Untouched mk guid s ops)
  | _, [] => isTrue trivial
  | s, op :: rest =>
    match (inferInstance : Decidable (op.target s ≠ some guid)),
        Untouched.dec mk guid (step mk s op) rest with
    | isTrue h1, isTrue h2 => isTrue ⟨h1, h2⟩
    | isFalse h1, _ => isFalse (fun h => h1 h.1)
    | _, isFalse h2 => isFalse (fun h => h2 h.2)

instance {R E : Type} (mk : String → String → Except E R) (guid : String) (s : State)
    (ops : List Op) : Decidable (Untouched mk guid s ops) :=
  Untouched.dec mk guid s ops

/-- Well-formed states.  References held by the store or by a sleeping
goroutine point to allocated maps; two devices never share one map object; a
map object captured by a goroutine is stored, if at all, under the device that
goroutine was started for.  The state at program start is well formed and
every step keeps it so (`wf_run`). -/
structure WF (s : State) : Prop where
  store_lt : ∀ g r, s.deviceState g = some r → r < s.next
  pending_lt : ∀ t ∈ s.pending, ∀ r, t.dState = some r → r < s.next
  store_inj : ∀ g g' r, s.deviceState g = some r → s.deviceState g' = some r → g = g'
  pending_own : ∀ t ∈ s.pending, ∀ r, t.dState = some r →
    ∀ g, s.deviceState g = some r → g = t.guid

/-- Every allocated map object carries a valid lock status. -/
def HeapOk (s : State) : Prop :=
  ∀ r, r < s.next →
    s.heap r "lockStatus" = some (Value.str "locked")
    ∨ s.heap r "lockStatus" = some (Value.str "unlocked_electrically")

/-! ## Setup actions (actions.go) -/

/-- The generation kinds `utils.RandomWalk`, `utils.Accumulate`, `utils.Store`. -/
inductive Strategy where
  | RandomWalk
  | Accumulate
  | Store
deriving DecidableEq, Repr

/-- The seeds the actions pass to `WithSeed`: an int, a string, or a
`map[string]string` literal (its entries in source order). -/
inductive Seed where
  | num (n : Int)
  | text (s : String)
  | fields (kv : List (String × String))
deriving DecidableEq, Repr

/-- The functions of package `utils` that the actions call, taken as
parameters of the actions: `Em` is the emitter type, `Reg` the emitter
registry that `SetEmitter` acts on, and the `Option String` it returns is the
Go `error` (`none` is `nil`). -/
structure EmitterAPI (Em Reg : Type) where
  NewValueEmitter : Strategy → Em
  WithLowerBound : Em → Int → Em
  WithUpperBound : Em → Int → Em
  WithSeed : Em → Seed → Em
  SetEmitter : Reg → String → Em → Option String × Reg

/-- An `sdk.DeviceAction`: name, filter and action function.  The action's
first argument `*sdk.Plugin` is ignored by every action and left out. -/
structure DeviceAction (Em Reg : Type) where
  Name : String
  Filter : List (String × List String)
  Action : EmitterAPI Em Reg → Reg → Device → Option String × Reg

def ActionAirflowValueEmitterSetup (Em Reg : Type) : DeviceAction Em Reg :=
  { Name := "airflow value emitter setup"
    Filter := [("type", ["airflow"])]
    Action := fun utils reg d =>
      let emitter := utils.WithUpperBound
        (utils.WithLowerBound (utils.NewValueEmitter Strategy.RandomWalk) (-100)) 100
      utils.SetEmitter reg d.id emitter }

def ActionEnergyValueEmitterSetup (Em Reg : Type) : DeviceAction Em Reg :=
  { Name := "energy value emitter setup"
    Filter := [("type", ["energy"])]
    Action := fun utils reg d =>
      let emitter := utils.WithUpperBound
        (utils.WithLowerBound (utils.NewValueEmitter Strategy.Accumulate) 0) 100000
      utils.SetEmitter reg d.id emitter }

def ActionFanValueEmitterSetup (Em Reg : Type) : DeviceAction Em Reg :=
  { Name := "fan value emitter setup"
    Filter := [("type", ["fan"])]
    Action := fun utils reg d =>
      let emitter := utils.WithSeed (utils.NewValueEmitter Strategy.Store) (Seed.num 0)
      utils.SetEmitter reg d.id emitter }

def ActionHumidityValueEmitterSetup (Em Reg : Type) : DeviceAction Em Reg :=
  { Name := "humidity value emitter setup"
    Filter := [("type", ["humidity"])]
    Action := fun utils reg d =>
      let emitter := utils.WithUpperBound
        (utils.WithLowerBound (utils.NewValueEmitter Strategy.RandomWalk) 0) 100
      utils.SetEmitter reg d.id emitter }

def ActionLEDValueEmitterSetup (Em Reg : Type) : DeviceAction Em Reg :=
  { Name := "LED value emitter setup"
    Filter := [("type", ["led"])]
    Action := fun utils reg d =>
      let emitter := utils.WithSeed (utils.NewValueEmitter Strategy.Store)
        (Seed.fields [("state", "off"), ("color", "000000")])
      utils.SetEmitter reg d.id emitter }

def ActionLockValueEmitterSetup (Em Reg : Type) : DeviceAction Em Reg :=
  { Name := "lock value emitter setup"
    Filter := [("type", ["lock"])]
    Action := fun utils reg d =>
      let emitter := utils.WithSeed (utils.NewValueEmitter Strategy.Store) (Seed.text "locked")
      utils.SetEmitter reg d.id emitter }

def ActionPowerValueEmitterSetup (Em Reg : Type) : DeviceAction Em Reg :=
  { Name := "power value emitter setup"
    Filter := [("type", ["power"])]
    Action := fun utils reg d =>
      let emitter := utils.WithUpperBound
        (utils.WithLowerBound (utils.NewValueEmitter Strategy.RandomWalk) 1000) 3000
      utils.SetEmitter reg d.id emitter }

def ActionPressureValueEmitterSetup (Em Reg : Type) : DeviceAction Em Reg :=
  { Name := "pressure value emitter setup"
    Filter := [("type", ["pressure"])]
    Action := fun utils reg d =>
      let emitter := utils.WithUpperBound
        (utils.WithLowerBound (utils.NewValueEmitter Strategy.RandomWalk) (-5)) 5
      utils.SetEmitter reg d.id emitter }

def ActionTemperatureValueEmitterSetup (Em Reg : Type) : DeviceAction Em Reg :=
  { Name := "temperature value emitter setup"
    Filter := [("type", ["temperature"])]
    Action := fun utils reg d =>
      let emitter := utils.WithUpperBound
        (utils.WithLowerBound (utils.NewValueEmitter Strategy.RandomWalk) 0) 100
      utils.SetEmitter reg d.id emitter }

def ActionVoltageValueEmitterSetup (Em Reg : Type) : DeviceAction Em Reg :=
  { Name := "voltage value emitter setup"
    Filter := [("type", ["voltage"])]
    Action := fun utils reg d =>
      let emitter := utils.WithUpperBound
        (utils.WithLowerBound (utils.NewValueEmitter Strategy.RandomWalk) 100) 500
      utils.SetEmitter reg d.id emitter }

/-- The ten setup actions of actions.go, in source order. -/
def setupActions (Em Reg : Type) : List (DeviceAction Em Reg) :=
  [ActionAirflowValueEmitterSetup Em Reg, ActionEnergyValueEmitterSetup Em Reg,
   ActionFanValueEmitterSetup Em Reg, ActionHumidityValueEmitterSetup Em Reg,
   ActionLEDValueEmitterSetup Em Reg, ActionLockValueEmitterSetup Em Reg,
   ActionPowerValueEmitterSetup Em Reg, ActionPressureValueEmitterSetup Em Reg,
   ActionTemperatureValueEmitterSetup Em Reg, ActionVoltageValueEmitterSetup Em Reg]

/-- One row of the specification's table of setup actions. -/
structure SpecRow where
  deviceType : String
  strategy : Strategy
  bounds : Option (Int × Int)
  seed : Option Seed
deriving DecidableEq, Repr

/-- The table of section 4.5 of the specification, row by row. -/
def specTable : List SpecRow :=
  [ ⟨"airflow", Strategy.RandomWalk, some (-100, 100), none⟩,
    ⟨"energy", Strategy.Accumulate, some (0, 100000), none⟩,
    ⟨"fan", Strategy.Store, none, some (Seed.num 0)⟩,
    ⟨"humidity", Strategy.RandomWalk, some (0, 100), none⟩,
    ⟨"led", Strategy.Store, none, some (Seed.fields [("state", "off"), ("color", "000000")])⟩,
    ⟨"lock", Strategy.Store, none, some (Seed.text "locked")⟩,
    ⟨"power", Strategy.RandomWalk, some (1000, 3000), none⟩,
    ⟨"pressure", Strategy.RandomWalk, some (-5, 5), none⟩,
    ⟨"temperature", Strategy.RandomWalk, some (0, 100), none⟩,
    ⟨"voltage", Strategy.RandomWalk, some (100, 500), none⟩ ]

/-- The emitter a table row describes, built with the given `utils`
functions: the strategy, then the bounds, then the seed, where present. -/
def specEmitter {Em Reg : Type} (utils : EmitterAPI Em Reg) (row : SpecRow) : Em :=
  let e0 := utils.NewValueEmitter row.strategy
  let e1 := match row.bounds with
    | none => e0
    | some (lo, hi) => utils.WithUpperBound (utils.WithLowerBound e0 lo) hi
  match row.seed with
  | none => e1
  | some v => utils.WithSeed e1 v

/-- The configuration of a value emitter, as a record. -/
structure ValueEmitter where
  strategyKind : Strategy
  lowerBound : Option Int
  upperBound : Option Int
  seed : Option Seed
deriving DecidableEq, Repr

/-- Modelled from the spec: the emitter constructor, its fluent configuration
and the registry of package `utils`, whose source is not embedded here.
`NewEmitter(strategyKind)` starts with no bounds and no seed, each `with...`
call sets its field, and `Register(deviceID, emitter)` installs or replaces
the device's emitter and succeeds unconditionally. -/
def recordUtils : EmitterAPI ValueEmitter (List (String × ValueEmitter)) :=
  { NewValueEmitter := fun k => ⟨k, none, none, none⟩
    WithLowerBound := fun e lo => { e with lowerBound := some lo }
    WithUpperBound := fun e hi => { e with upperBound := some hi }
    WithSeed := fun e v => { e with seed := some v }
    SetEmitter := fun reg deviceID e => (none, (deviceID, e) :: reg.filter (fun p => p.1 ≠ deviceID)) }

/-! ## Executions used as concrete inputs -/

/-- Two `pulseUnlock` writes to a device without a record, the first
goroutine fires, then an `unlock` write: the second goroutine is still
pending and holds the map object the first firing replaced. -/
def staleOps : List Op :=
  [Op.write devA "pulseUnlock", Op.write devA "pulseUnlock", Op.fire 0, Op.write devA "unlock"]

/-- Whether the bounds of an emitter record, where both are set, are in order. -/
def boundsOrdered (e : ValueEmitter) : Bool :=
  match e.lowerBound, e.upperBound with
  | some lo, some hi => decide (lo ≤ hi)
  | _, _ => true

/-! ## Basic facts about the store primitives -/

theorem upd_same {α β : Type} [DecidableEq α] (m : α → β) (a : α) (b : β) :
    upd m a b a = b := by
  simp [upd]

theorem upd_other {α β : Type} [DecidableEq α] (m : α → β) (a : α) (b : β) (x : α)
    (h : x ≠ a) : upd m a b x = m x := by
  simp [upd, h]

theorem statusLock_ne_empty : statusLock ≠ "" := by decide

theorem statusUnlock_ne_empty : statusUnlock ≠ "" := by decide

/-- After the `if !ok ... else ...` block run with the current lookup of the
device, the device's stored status is the one written. -/
theorem storedLockStatus_setLockStatus (s : State) (device : Device) (status : String) :
    storedLockStatus (setLockStatus s device.guid (s.deviceState device.guid) status) device
      = some status := by
  cases h : s.deviceState device.guid with
  | none => simp [setLockStatus, storeNew, storedLockStatus, upd, newRecord]
  | some r => simp [setLockStatus, assignStatus, storedLockStatus, upd, h]

/-- A read of a device whose stored status is a non-empty string reports it. -/
theorem lockRead_of_stored {R E : Type} (mk : String → String → Except E R) (s : State)
    (device : Device) (status : String) (h : storedLockStatus s device = some status)
    (hne : status ≠ "") : lockRead mk s device = (reportStatus mk status, s) := by
  simp [lockRead, h, hne]

/-- Adding a goroutine to `pending` does not change what is stored. -/
theorem storedLockStatus_pending (s : State) (p : List Deferred) (device : Device) :
    storedLockStatus { s with pending := p } device = storedLockStatus s device := rfl

/-- What `lockRead` returns when the stored status is a non-empty string, in
terms of `MakeReading` itself: never a panic, exactly the one reading
`MakeReading` builds for that status on `lock.status`, or its error. -/
theorem lockRead_reports {R E : Type} (mk : String → String → Except E R) (s : State)
    (device : Device) (status : String) (h : storedLockStatus s device = some status)
    (hne : status ≠ "") :
    (lockRead mk s device).1 ≠ ReadResult.panic
    ∧ (∀ reading, mk "lock.status" status = Except.ok reading →
        (lockRead mk s device).1 = ReadResult.ok [reading])
    ∧ (∀ e, mk "lock.status" status = Except.error e →
        (lockRead mk s device).1 = ReadResult.error e) := by
  rw [lockRead_of_stored mk s device status h hne]
  refine ⟨?_, ?_, ?_⟩
  · show reportStatus mk status ≠ ReadResult.panic
    unfold reportStatus; split <;> simp
  · intro reading hm; simp [reportStatus, hm]
  · intro e hm; simp [reportStatus, hm]

/-- C1: on every state and for every device, writing `lock` returns no error
and the read that follows reports `locked`: it does not panic and returns
exactly the one reading `MakeReading` builds for `locked` on `lock.status` (or
`MakeReading`'s error); writing `unlock` returns no error and the read that
follows reports `unlocked_electrically` in the same sense.  The prior state
does not matter. -/
theorem lockWrite_lock_unlock_read {R E : Type} (mk : String → String → Except E R)
    (s : State) (device : Device) :
    (lockWrite s device "lock").1 = none
    ∧ (lockRead mk (lockWrite s device "lock").2 device).1 ≠ ReadResult.panic
    ∧ (∀ reading, mk "lock.status" "locked" = Except.ok reading →
        (lockRead mk (lockWrite s device "lock").2 device).1 = ReadResult.ok [reading])
    ∧ (∀ e, mk "lock.status" "locked" = Except.error e →
        (lockRead mk (lockWrite s device "lock").2 device).1 = ReadResult.error e)
    ∧ (lockWrite s device "unlock").1 = none
    ∧ (lockRead mk (lockWrite s device "unlock").2 device).1 ≠ ReadResult.panic
    ∧ (∀ reading, mk "lock.status" "unlocked_electrically" = Except.ok reading →
        (lockRead mk (lockWrite s device "unlock").2 device).1 = ReadResult.ok [reading])
    ∧ (∀ e, mk "lock.status" "unlocked_electrically" = Except.error e →
        (lockRead mk (lockWrite s device "unlock").2 device).1 = ReadResult.error e) := by
  have hl : lockWrite s device "lock"
      = (none, setLockStatus s device.guid (s.deviceState device.guid) statusLock) := by
    simp [lockWrite, actionLock]
  have hu : lockWrite s device "unlock"
      = (none, setLockStatus s device.guid (s.deviceState device.guid) statusUnlock) := by
    simp [lockWrite, actionLock, actionUnlock]
  have rl := lockRead_reports mk (lockWrite s device "lock").2 device statusLock
    (by rw [hl]; exact storedLockStatus_setLockStatus s device statusLock) statusLock_ne_empty
  have ru := lockRead_reports mk (lockWrite s device "unlock").2 device statusUnlock
    (by rw [hu]; exact storedLockStatus_setLockStatus s device statusUnlock)
    statusUnlock_ne_empty
  exact ⟨by rw [hl], rl.1, rl.2.1, rl.2.2, by rw [hu], ru.1, ru.2.1, ru.2.2⟩

theorem lockWrite_lock_unlock_read_witness :
    (lockRead plainReading
        (lockWrite (lockWrite State.empty devA "unlock").2 devA "lock").2 devA).1
      = ReadResult.ok [("lock.status", "locked")]
    ∧ (lockRead plainReading
        (lockWrite (lockWrite State.empty devA "lock").2 devA "unlock").2 devA).1
      = ReadResult.ok [("lock.status", "unlocked_electrically")] :=
  ⟨(lockWrite_lock_unlock_read plainReading (lockWrite State.empty devA "unlock").2 devA).2.2.1
      ("lock.status", "locked") rfl,
   (lockWrite_lock_unlock_read plainReading
      (lockWrite State.empty devA "lock").2 devA).2.2.2.2.2.2.1
      ("lock.status", "unlocked_electrically") rfl⟩

/-- C2: an action other than `lock`, `unlock`, `pulseUnlock` makes `lockWrite`
return the error `unsupported command for status action: <action>` and leaves
the state (store, records and pending goroutines) as it was; each of the three
recognised actions returns no error. -/
theorem lockWrite_unsupported (s : State) (device : Device) (action : String) :
    (action ∉ ["lock", "unlock", "pulseUnlock"] →
        lockWrite s device action
          = (some ("unsupported command for status action: " ++ action), s))
    ∧ (action ∈ ["lock", "unlock", "pulseUnlock"] → (lockWrite s device action).1 = none)
    ∧ ((lockWrite s device action).1 = none ↔ action ∈ ["lock", "unlock", "pulseUnlock"]) := by
  by_cases h1 : action = "lock"
  · subst h1; simp [lockWrite, actionLock]
  by_cases h2 : action = "unlock"
  · subst h2; simp [lockWrite, actionLock, actionUnlock]
  by_cases h3 : action = "pulseUnlock"
  · subst h3; simp [lockWrite, actionLock, actionUnlock, actionPulseUnlock]
  simp [lockWrite, actionLock, actionUnlock, actionPulseUnlock, h1, h2, h3]

theorem lockWrite_unsupported_witness :
    lockWrite State.empty devA "explode"
        = (some "unsupported command for status action: explode", State.empty)
    ∧ (lockWrite State.empty devA "pulseUnlock").1 = none :=
  ⟨(lockWrite_unsupported State.empty devA "explode").1 (by decide),
   (lockWrite_unsupported State.empty devA "pulseUnlock").2.1 (by decide)⟩

/-- C3: when the device has no record, or its record has no `lockStatus`
field, `lockRead` does not panic and yields what `MakeReading` on the output
`lock.status` gives for the default `locked`: its error, or exactly one
reading. -/
theorem lockRead_default {R E : Type} (mk : String → String → Except E R)
    (s : State) (device : Device)
    (h : recordOf s device = none ∨ ∃ rec, recordOf s device = some rec ∧ rec "lockStatus" = none) :
    (lockRead mk s device).1 = reportStatus mk "locked"
    ∧ (lockRead mk s device).1 ≠ ReadResult.panic
    ∧ (∀ reading, mk "lock.status" "locked" = Except.ok reading →
        (lockRead mk s device).1 = ReadResult.ok [reading])
    ∧ (∀ e, mk "lock.status" "locked" = Except.error e →
        (lockRead mk s device).1 = ReadResult.error e) := by
  have hs : storedLockStatus s device = some "" := by
    unfold recordOf at h
    unfold storedLockStatus
    cases hd : s.deviceState device.guid with
    | none => rfl
    | some r =>
      rw [hd] at h
      rcases h with h | ⟨rec, h, hrec⟩
      · simp at h
      · simp only [Option.map_some', Option.some.injEq] at h
        subst h
        simp [hrec]
  have hr : (lockRead mk s device).1 = reportStatus mk "locked" := by
    simp [lockRead, hs, statusLock]
  refine ⟨hr, ?_, ?_, ?_⟩
  · rw [hr]; unfold reportStatus; split <;> simp
  · intro reading hm; rw [hr]; simp [reportStatus, hm]
  · intro e hm; rw [hr]; simp [reportStatus, hm]

theorem lockRead_default_witness :
    (lockRead plainReading State.empty devA).1 = reportStatus plainReading "locked"
    ∧ (lockRead plainReading State.empty devA).1 ≠ ReadResult.panic
    ∧ (∀ reading, plainReading "lock.status" "locked" = Except.ok reading →
        (lockRead plainReading State.empty devA).1 = ReadResult.ok [reading])
    ∧ (∀ e, plainReading "lock.status" "locked" = Except.error e →
        (lockRead plainReading State.empty devA).1 = ReadResult.error e) :=
  lockRead_default plainReading State.empty devA (Or.inl rfl)

/-- C5: `lockRead` leaves the state as it found it: the store, every record
and the pending goroutines are the same afterwards, so a device without a
record still has none and the reported default is not written back. -/
theorem lockRead_state_unchanged {R E : Type} (mk : String → String → Except E R)
    (s : State) (device : Device) :
    (lockRead mk s device).2 = s
    ∧ (∀ other : Device, recordOf (lockRead mk s device).2 other = recordOf s other)
    ∧ storedLockStatus (lockRead mk s device).2 device = storedLockStatus s device := by
  have h : (lockRead mk s device).2 = s := by
    unfold lockRead
    split <;> rfl
  refine ⟨h, ?_, ?_⟩
  · intro other; rw [h]
  · rw [h]


/-! ## Well-formedness is an invariant -/

theorem wf_empty : WF State.empty :=
  { store_lt := by intro g r h; simp [State.empty] at h
    pending_lt := by intro t ht; simp [State.empty] at ht
    store_inj := by intro g g' r h; simp [State.empty] at h
    pending_own := by intro t ht; simp [State.empty] at ht }

theorem wf_storeNew (s : State) (g status : String) (h : WF s) : WF (storeNew s g status) := by
  constructor
  · intro g1 r hr
    simp only [storeNew, upd] at hr ⊢
    split at hr
    · simp only [Option.some.injEq] at hr; omega
    · have := h.store_lt g1 r hr; omega
  · intro t ht r hr
    have := h.pending_lt t ht r hr
    simp only [storeNew]; omega
  · intro g1 g2 r h1 h2
    simp only [storeNew, upd] at h1 h2
    split at h1 <;> split at h2
    · simp_all
    · simp only [Option.some.injEq] at h1
      have := h.store_lt g2 r h2; omega
    · simp only [Option.some.injEq] at h2
      have := h.store_lt g1 r h1; omega
    · exact h.store_inj g1 g2 r h1 h2
  · intro t ht r hr g1 h1
    simp only [storeNew, upd] at h1
    split at h1
    · simp only [Option.some.injEq] at h1
      have := h.pending_lt t ht r hr; omega
    · exact h.pending_own t ht r hr g1 h1

theorem wf_assignStatus (s : State) (r : Nat) (status : String) (h : WF s) :
    WF (assignStatus s r status) :=
  { store_lt := h.store_lt, pending_lt := h.pending_lt,
    store_inj := h.store_inj, pending_own := h.pending_own }

theorem wf_setLockStatus (s : State) (g : String) (d : Option Nat) (status : String)
    (h : WF s) : WF (setLockStatus s g d status) := by
  cases d with
  | none => exact wf_storeNew s g status h
  | some r => exact wf_assignStatus s r status h

/-- Dropping sleeping goroutines keeps a state well formed. -/
theorem wf_pending_subset (s : State) (p : List Deferred) (h : WF s)
    (hp : ∀ t ∈ p, t ∈ s.pending) : WF { s with pending := p } :=
  { store_lt := h.store_lt
    pending_lt := fun t ht => h.pending_lt t (hp t ht)
    store_inj := h.store_inj
    pending_own := fun t ht => h.pending_own t (hp t ht) }

theorem setLockStatus_pending (s : State) (g : String) (d : Option Nat) (status : String) :
    (setLockStatus s g d status).pending = s.pending := by
  cases d <;> rfl

theorem wf_lockWrite (s : State) (device : Device) (action : String) (h : WF s) :
    WF (lockWrite s device action).2 := by
  unfold lockWrite
  simp only
  split
  · exact wf_setLockStatus _ _ _ _ h
  split
  · exact wf_setLockStatus _ _ _ _ h
  split
  · cases hd : s.deviceState device.guid with
    | none =>
      have hw := wf_storeNew s device.guid statusUnlock h
      constructor
      · exact hw.store_lt
      · intro t ht r hr
        simp only [setLockStatus, storeNew, List.mem_append, List.mem_singleton] at ht
        rcases ht with ht | ht
        · exact hw.pending_lt t ht r hr
        · subst ht; simp at hr
      · exact hw.store_inj
      · intro t ht r hr
        simp only [setLockStatus, storeNew, List.mem_append, List.mem_singleton] at ht
        rcases ht with ht | ht
        · exact hw.pending_own t ht r hr
        · subst ht; simp at hr
    | some r0 =>
      constructor
      · exact h.store_lt
      · intro t ht r hr
        simp only [setLockStatus, assignStatus, List.mem_append, List.mem_singleton] at ht
        rcases ht with ht | ht
        · exact h.pending_lt t ht r hr
        · subst ht
          simp only [Option.some.injEq] at hr
          subst hr
          exact h.store_lt _ _ hd
      · exact h.store_inj
      · intro t ht r hr g hg
        simp only [setLockStatus, assignStatus, List.mem_append, List.mem_singleton] at ht
        rcases ht with ht | ht
        · exact h.pending_own t ht r hr g hg
        · subst ht
          simp only [Option.some.injEq] at hr
          subst hr
          exact h.store_inj _ _ _ hg hd
  · exact h

theorem wf_fire (s : State) (i : Nat) (h : WF s) : WF (fire s i) := by
  unfold fire
  split
  · exact h
  · exact wf_setLockStatus _ _ _ _
      (wf_pending_subset s _ h (fun t ht => List.mem_of_mem_eraseIdx ht))

theorem lockRead_state {R E : Type} (mk : String → String → Except E R) (s : State)
    (device : Device) : (lockRead mk s device).2 = s := by
  unfold lockRead
  split <;> rfl

theorem wf_step {R E : Type} (mk : String → String → Except E R) (s : State) (op : Op)
    (h : WF s) : WF (step mk s op) := by
  cases op with
  | write device action => exact wf_lockWrite s device action h
  | read device => simp only [step, lockRead_state]; exact h
  | fire i => exact wf_fire s i h

theorem wf_run {R E : Type} (mk : String → String → Except E R) (ops : List Op) :
    ∀ s, WF s → WF (run mk s ops) := by
  induction ops with
  | nil => intro s h; exact h
  | cons op rest ih => intro s h; exact ih _ (wf_step mk s op h)

/-! ## Frame lemmas: steps on one device and the entry of another -/

theorem setLockStatus_deviceState (s : State) (g0 : String) (d : Option Nat) (status g : String)
    (hne : g0 ≠ g) : (setLockStatus s g0 d status).deviceState g = s.deviceState g := by
  cases d with
  | none => simp [setLockStatus, storeNew, upd, Ne.symm hne]
  | some r => rfl

theorem lockWrite_deviceState (s : State) (device : Device) (action g : String)
    (hne : device.guid ≠ g) : (lockWrite s device action).2.deviceState g = s.deviceState g := by
  unfold lockWrite
  simp only
  split
  · exact setLockStatus_deviceState _ _ _ _ _ hne
  split
  · exact setLockStatus_deviceState _ _ _ _ _ hne
  split
  · exact setLockStatus_deviceState _ _ _ _ _ hne
  · rfl

theorem fire_deviceState (s : State) (i : Nat) (g : String)
    (hne : (s.pending.get? i).map Deferred.guid ≠ some g) :
    (fire s i).deviceState g = s.deviceState g := by
  unfold fire
  cases ht : s.pending.get? i with
  | none => rfl
  | some t =>
    rw [ht] at hne
    simp only [Option.map_some', ne_eq, Option.some.injEq] at hne
    exact setLockStatus_deviceState _ _ _ _ _ hne

/-- A step that does not write to a device leaves its store entry alone. -/
theorem step_deviceState {R E : Type} (mk : String → String → Except E R) (s : State)
    (op : Op) (g : String) (hne : op.target s ≠ some g) :
    (step mk s op).deviceState g = s.deviceState g := by
  cases op with
  | write device action =>
    apply lockWrite_deviceState
    intro h; exact hne (by simp [Op.target, h])
  | read device => simp only [step, lockRead_state]
  | fire i => exact fire_deviceState s i g hne

theorem lockWrite_pending_mem (s : State) (device : Device) (action : String) (t : Deferred)
    (ht : t ∈ s.pending) : t ∈ (lockWrite s device action).2.pending := by
  unfold lockWrite
  simp only
  split
  · rw [setLockStatus_pending]; exact ht
  split
  · rw [setLockStatus_pending]; exact ht
  split
  · simp only [setLockStatus_pending, List.mem_append, List.mem_singleton]
    exact Or.inl ht
  · exact ht

theorem fire_pending_mem (s : State) (i : Nat) (t : Deferred) (ht : t ∈ s.pending)
    (hne : (s.pending.get? i).map Deferred.guid ≠ some t.guid) : t ∈ (fire s i).pending := by
  unfold fire
  cases hi : s.pending.get? i with
  | none => exact ht
  | some t0 =>
    rw [hi] at hne
    simp only [Option.map_some', ne_eq, Option.some.injEq] at hne
    simp only [fireDeferred, setLockStatus_pending]
    rw [List.mem_eraseIdx_iff_getElem?]
    obtain ⟨n, hn⟩ := List.mem_iff_getElem?.mp ht
    refine ⟨n, ?_, hn⟩
    intro hni
    subst hni
    rw [List.get?_eq_getElem?, hn] at hi
    simp only [Option.some.injEq] at hi
    exact hne (by rw [hi])

/-- A sleeping goroutine stays pending through a step that is not its own
device's. -/
theorem step_pending_mem {R E : Type} (mk : String → String → Except E R) (s : State)
    (op : Op) (t : Deferred) (ht : t ∈ s.pending) (hne : op.target s ≠ some t.guid) :
    t ∈ (step mk s op).pending := by
  cases op with
  | write device action => exact lockWrite_pending_mem s device action t ht
  | read device => simp only [step, lockRead_state]; exact ht
  | fire i => exact fire_pending_mem s i t ht hne

theorem run_untouched {R E : Type} (mk : String → String → Except E R) (g : String)
    (ops : List Op) : ∀ s, Untouched mk g s ops →
      (run mk s ops).deviceState g = s.deviceState g
      ∧ ∀ t ∈ s.pending, t.guid = g → t ∈ (run mk s ops).pending := by
  induction ops with
  | nil => intro s _; exact ⟨rfl, fun t ht _ => ht⟩
  | cons op rest ih =>
    intro s hu
    obtain ⟨h1, h2⟩ := hu
    obtain ⟨ih1, ih2⟩ := ih (step mk s op) h2
    refine ⟨?_, ?_⟩
    · show (run mk (step mk s op) rest).deviceState g = _
      rw [ih1, step_deviceState mk s op g h1]
    · intro t ht hg
      exact ih2 t (step_pending_mem mk s op t ht (by rw [hg]; exact h1)) hg

/-- The `if !ok ... else ...` block run with a `dState` that is either absent
or still the device's stored map makes the written status the stored one. -/
theorem storedLockStatus_setLockStatus_of (s : State) (device : Device) (d : Option Nat)
    (status : String) (h : ∀ r, d = some r → s.deviceState device.guid = some r) :
    storedLockStatus (setLockStatus s device.guid d status) device = some status := by
  cases d with
  | none => simp [setLockStatus, storeNew, storedLockStatus, upd, newRecord]
  | some r => simp [setLockStatus, assignStatus, storedLockStatus, upd, h r rfl]

theorem lockWrite_pulseUnlock (s : State) (device : Device) :
    lockWrite s device "pulseUnlock"
      = (none, { setLockStatus s device.guid (s.deviceState device.guid) statusUnlock with
                 pending := s.pending ++ [⟨device.guid, s.deviceState device.guid, 5⟩] }) := by
  simp [lockWrite, actionLock, actionUnlock, actionPulseUnlock, setLockStatus_pending]

/-- The store entry of the written device after `pulseUnlock`: the captured
map when there was one. -/
theorem lockWrite_pulseUnlock_entry (s : State) (device : Device) (r : Nat)
    (h : s.deviceState device.guid = some r) :
    (lockWrite s device "pulseUnlock").2.deviceState device.guid = some r := by
  rw [lockWrite_pulseUnlock]
  simp [h, setLockStatus, assignStatus]

/-! ## Cross-device isolation -/

/-- The `if !ok ... else ...` block for device `g0` leaves the map object of
another device `g` as it was, when that object is allocated and is not the
`dState` written through. -/
theorem setLockStatus_heap (s : State) (g0 : String) (d : Option Nat) (status : String)
    (r : Nat) (hlt : r < s.next) (hd : d ≠ some r) :
    (setLockStatus s g0 d status).heap r = s.heap r := by
  cases d with
  | none =>
    have : r ≠ s.next := by omega
    simp [setLockStatus, storeNew, upd, this]
  | some r0 =>
    have : r ≠ r0 := by intro h; exact hd (by rw [h])
    simp [setLockStatus, assignStatus, upd, this]

theorem lockWrite_heap (s : State) (device : Device) (action : String) (r : Nat)
    (hlt : r < s.next) (hd : s.deviceState device.guid ≠ some r) :
    (lockWrite s device action).2.heap r = s.heap r := by
  unfold lockWrite
  simp only
  split
  · exact setLockStatus_heap _ _ _ _ _ hlt hd
  split
  · exact setLockStatus_heap _ _ _ _ _ hlt hd
  split
  · exact setLockStatus_heap _ _ _ _ _ hlt hd
  · rfl

theorem fire_heap (s : State) (i : Nat) (r : Nat) (hlt : r < s.next)
    (hd : ∀ t, s.pending.get? i = some t → t.dState ≠ some r) :
    (fire s i).heap r = s.heap r := by
  unfold fire
  cases ht : s.pending.get? i with
  | none => rfl
  | some t => exact setLockStatus_heap _ _ _ _ _ hlt (hd t ht)

/-- In a well-formed state a step that does not write to a device leaves that
device's store entry and its map object as they were. -/
theorem step_frame {R E : Type} (mk : String → String → Except E R) (s : State)
    (op : Op) (g : String) (h : WF s) (hne : op.target s ≠ some g) :
    (step mk s op).deviceState g = s.deviceState g
    ∧ ∀ r, s.deviceState g = some r → (step mk s op).heap r = s.heap r := by
  refine ⟨step_deviceState mk s op g hne, ?_⟩
  intro r hr
  have hlt := h.store_lt g r hr
  cases op with
  | write device action =>
    apply lockWrite_heap s device action r hlt
    intro hd
    exact hne (by simp [Op.target, h.store_inj _ _ _ hd hr])
  | read device => simp only [step, lockRead_state]
  | fire i =>
    apply fire_heap s i r hlt
    intro t ht hd
    have hmem : t ∈ s.pending := by
      rw [List.get?_eq_getElem?] at ht
      exact List.mem_iff_getElem?.mpr ⟨i, ht⟩
    have := h.pending_own t hmem r hd g hr
    exact hne (by rw [this]; simp only [Op.target, ht, Option.map_some'])

theorem recordOf_eq_of_frame (s s' : State) (device : Device)
    (h1 : s'.deviceState device.guid = s.deviceState device.guid)
    (h2 : ∀ r, s.deviceState device.guid = some r → s'.heap r = s.heap r) :
    recordOf s' device = recordOf s device := by
  unfold recordOf
  rw [h1]
  cases hd : s.deviceState device.guid with
  | none => rfl
  | some r => simp [h2 r hd]

/-- What `lockRead` finds depends only on the device's record. -/
theorem storedLockStatus_eq_recordOf (s : State) (device : Device) :
    storedLockStatus s device
      = match recordOf s device with
        | none => some ""
        | some rec =>
          match rec "lockStatus" with
          | none => some ""
          | some (Value.str v) => some v
          | some _ => none := by
  unfold storedLockStatus recordOf
  cases s.deviceState device.guid <;> rfl

theorem lockRead_eq_of_recordOf {R E : Type} (mk : String → String → Except E R)
    (s s' : State) (device : Device) (h : recordOf s' device = recordOf s device) :
    (lockRead mk s' device).1 = (lockRead mk s device).1 := by
  have : storedLockStatus s' device = storedLockStatus s device := by
    rw [storedLockStatus_eq_recordOf, storedLockStatus_eq_recordOf, h]
  unfold lockRead
  rw [this]
  cases storedLockStatus s device <;> rfl

theorem lockWrite_pending_cases (s : State) (device : Device) (action : String) :
    (lockWrite s device action).2.pending = s.pending
    ∨ ∃ t : Deferred, t.guid = device.guid
        ∧ (lockWrite s device action).2.pending = s.pending ++ [t] := by
  unfold lockWrite
  simp only
  split
  · left; exact setLockStatus_pending _ _ _ _
  split
  · left; exact setLockStatus_pending _ _ _ _
  split
  · right
    exact ⟨⟨device.guid, s.deviceState device.guid, 5⟩, rfl, by simp [setLockStatus_pending]⟩
  · left; rfl

/-- Steps that do not write to a device leave its record as it was, from a
well-formed state on. -/
theorem run_frame {R E : Type} (mk : String → String → Except E R) (device : Device)
    (ops : List Op) : ∀ s, WF s → Untouched mk device.guid s ops →
      recordOf (run mk s ops) device = recordOf s device := by
  induction ops with
  | nil => intro s _ _; rfl
  | cons op rest ih =>
    intro s h hu
    obtain ⟨h1, h2⟩ := hu
    obtain ⟨f1, f2⟩ := step_frame mk s op device.guid h h1
    show recordOf (run mk (step mk s op) rest) device = _
    rw [ih (step mk s op) (wf_step mk s op h) h2]
    exact recordOf_eq_of_frame s _ device f1 f2

/-- A goroutine whose captured map, if any, is still the device's stored map
leaves `locked` as the device's stored status when it fires. -/
theorem storedLockStatus_fire (s : State) (device : Device) (i : Nat) (d : Option Nat)
    (n : Nat) (hi : s.pending.get? i = some ⟨device.guid, d, n⟩)
    (h : ∀ r, d = some r → s.deviceState device.guid = some r) :
    storedLockStatus (fire s i) device = some statusLock := by
  unfold fire
  rw [hi]
  exact storedLockStatus_setLockStatus_of _ device d statusLock h

/-- C4: `pulseUnlock` returns no error and adds exactly one goroutine,
sleeping 5 seconds, for the written device.  A read right after the write
reports `unlocked_electrically`: no panic, exactly the one reading
`MakeReading` builds for that status on `lock.status`, or its error; from a
well-formed state the same holds for a read after any steps that do not write
to the device.  Firing the goroutine right away, or after any steps that do
not write to the device (reads, writes to other devices, goroutines of other
devices), through which it stays pending, makes the read that follows report
`locked` in the same sense. -/
theorem pulseUnlock_then_fire {R E : Type} (mk : String → String → Except E R)
    (s : State) (device : Device) :
    (lockWrite s device "pulseUnlock").1 = none
    ∧ (lockWrite s device "pulseUnlock").2.pending
        = s.pending ++ [⟨device.guid, s.deviceState device.guid, 5⟩]
    ∧ ((lockRead mk (lockWrite s device "pulseUnlock").2 device).1 ≠ ReadResult.panic
      ∧ (∀ reading, mk "lock.status" "unlocked_electrically" = Except.ok reading →
          (lockRead mk (lockWrite s device "pulseUnlock").2 device).1 = ReadResult.ok [reading])
      ∧ (∀ e, mk "lock.status" "unlocked_electrically" = Except.error e →
          (lockRead mk (lockWrite s device "pulseUnlock").2 device).1 = ReadResult.error e))
    ∧ ((lockRead mk (fire (lockWrite s device "pulseUnlock").2 s.pending.length) device).1
          ≠ ReadResult.panic
      ∧ (∀ reading, mk "lock.status" "locked" = Except.ok reading →
          (lockRead mk (fire (lockWrite s device "pulseUnlock").2 s.pending.length) device).1
            = ReadResult.ok [reading])
      ∧ (∀ e, mk "lock.status" "locked" = Except.error e →
          (lockRead mk (fire (lockWrite s device "pulseUnlock").2 s.pending.length) device).1
            = ReadResult.error e))
    ∧ (∀ ops, Untouched mk device.guid (lockWrite s device "pulseUnlock").2 ops →
        (∃ i, (run mk (lockWrite s device "pulseUnlock").2 ops).pending.get? i
            = some ⟨device.guid, s.deviceState device.guid, 5⟩)
        ∧ ∀ i, (run mk (lockWrite s device "pulseUnlock").2 ops).pending.get? i
            = some ⟨device.guid, s.deviceState device.guid, 5⟩ →
          (lockRead mk (fire (run mk (lockWrite s device "pulseUnlock").2 ops) i) device).1
              ≠ ReadResult.panic
          ∧ (∀ reading, mk "lock.status" "locked" = Except.ok reading →
              (lockRead mk (fire (run mk (lockWrite s device "pulseUnlock").2 ops) i) device).1
                = ReadResult.ok [reading])
          ∧ (∀ e, mk "lock.status" "locked" = Except.error e →
              (lockRead mk (fire (run mk (lockWrite s device "pulseUnlock").2 ops) i) device).1
                = ReadResult.error e))
    ∧ (WF s → ∀ ops, Untouched mk device.guid (lockWrite s device "pulseUnlock").2 ops →
        (lockRead mk (run mk (lockWrite s device "pulseUnlock").2 ops) device).1
            ≠ ReadResult.panic
        ∧ (∀ reading, mk "lock.status" "unlocked_electrically" = Except.ok reading →
            (lockRead mk (run mk (lockWrite s device "pulseUnlock").2 ops) device).1
              = ReadResult.ok [reading])
        ∧ (∀ e, mk "lock.status" "unlocked_electrically" = Except.error e →
            (lockRead mk (run mk (lockWrite s device "pulseUnlock").2 ops) device).1
              = ReadResult.error e)) := by
  have hp : (lockWrite s device "pulseUnlock").2.pending
      = s.pending ++ [⟨device.guid, s.deviceState device.guid, 5⟩] := by
    rw [lockWrite_pulseUnlock]
  have hentry : ∀ r, s.deviceState device.guid = some r →
      (lockWrite s device "pulseUnlock").2.deviceState device.guid = some r :=
    fun r hr => lockWrite_pulseUnlock_entry s device r hr
  have hs : storedLockStatus (lockWrite s device "pulseUnlock").2 device
      = some statusUnlock := by
    rw [lockWrite_pulseUnlock]
    exact storedLockStatus_setLockStatus s device statusUnlock
  refine ⟨by rw [lockWrite_pulseUnlock], hp, ?_, ?_, ?_, ?_⟩
  · exact lockRead_reports mk _ device statusUnlock hs statusUnlock_ne_empty
  · apply lockRead_reports mk _ device statusLock _ statusLock_ne_empty
    apply storedLockStatus_fire _ device _ (s.deviceState device.guid) 5
    · rw [hp]; simp
    · exact hentry
  · intro ops hu
    obtain ⟨h1, h2⟩ := run_untouched mk device.guid ops _ hu
    refine ⟨?_, ?_⟩
    · have hm := h2 ⟨device.guid, s.deviceState device.guid, 5⟩ (by rw [hp]; simp) rfl
      obtain ⟨n, hn⟩ := List.mem_iff_getElem?.mp hm
      exact ⟨n, by rw [List.get?_eq_getElem?]; exact hn⟩
    · intro i hi
      apply lockRead_reports mk _ device statusLock _ statusLock_ne_empty
      apply storedLockStatus_fire _ device i (s.deviceState device.guid) 5 hi
      intro r hr
      rw [h1]
      exact hentry r hr
  · intro hwf ops hu
    apply lockRead_reports mk _ device statusUnlock _ statusUnlock_ne_empty
    have hrec := run_frame mk device ops _ (wf_lockWrite s device "pulseUnlock" hwf) hu
    rw [storedLockStatus_eq_recordOf, hrec, ← storedLockStatus_eq_recordOf]
    exact hs

theorem pulseUnlock_then_fire_witness :
    (lockRead plainReading (lockWrite (lockWrite State.empty devA "lock").2 devA
        "pulseUnlock").2 devA).1 = ReadResult.ok [("lock.status", "unlocked_electrically")]
    ∧ (lockRead plainReading (fire (lockWrite (lockWrite State.empty devA "lock").2 devA
        "pulseUnlock").2 (lockWrite State.empty devA "lock").2.pending.length) devA).1
        = ReadResult.ok [("lock.status", "locked")]
    ∧ (lockRead plainReading (fire (run plainReading
        (lockWrite (lockWrite State.empty devA "lock").2 devA "pulseUnlock").2
        [Op.write devB "pulseUnlock", Op.read devA, Op.fire 1]) 0) devA).1
        = ReadResult.ok [("lock.status", "locked")]
    ∧ (lockRead plainReading (run plainReading
        (lockWrite (lockWrite State.empty devA "lock").2 devA "pulseUnlock").2
        [Op.write devB "pulseUnlock", Op.read devA, Op.fire 1]) devA).1
        = ReadResult.ok [("lock.status", "unlocked_electrically")] :=
  ⟨(pulseUnlock_then_fire plainReading (lockWrite State.empty devA "lock").2 devA).2.2.1.2.1
      ("lock.status", "unlocked_electrically") rfl,
   (pulseUnlock_then_fire plainReading (lockWrite State.empty devA "lock").2 devA).2.2.2.1.2.1
      ("lock.status", "locked") rfl,
   (((pulseUnlock_then_fire plainReading (lockWrite State.empty devA "lock").2 devA).2.2.2.2.1
      [Op.write devB "pulseUnlock", Op.read devA, Op.fire 1]
      (by decide)).2 0 (by decide)).2.1 ("lock.status", "locked") rfl,
   ((pulseUnlock_then_fire plainReading (lockWrite State.empty devA "lock").2 devA).2.2.2.2.2
      (wf_lockWrite State.empty devA "lock" wf_empty)
      [Op.write devB "pulseUnlock", Op.read devA, Op.fire 1]
      (by decide)).2.1 ("lock.status", "unlocked_electrically") rfl⟩

/-- C8: in a well-formed state, a write to one device, with any action string,
leaves the record of every other device (presence and all fields) and what
`lockRead` reports for it unchanged; the write schedules goroutines for the
written device only; and whenever later a goroutine of the written device
fires, the other device's record and reported status are again unchanged. -/
theorem lockWrite_isolation {R E : Type} (mk : String → String → Except E R)
    (s : State) (device other : Device) (action : String)
    (h : WF s) (hne : device.guid ≠ other.guid) :
    recordOf (lockWrite s device action).2 other = recordOf s other
    ∧ (lockRead mk (lockWrite s device action).2 other).1 = (lockRead mk s other).1
    ∧ ((lockWrite s device action).2.pending = s.pending
        ∨ ∃ t : Deferred, t.guid = device.guid
            ∧ (lockWrite s device action).2.pending = s.pending ++ [t])
    ∧ ∀ (ops : List Op) (i : Nat) (t : Deferred),
        (run mk (lockWrite s device action).2 ops).pending.get? i = some t →
        t.guid = device.guid →
        recordOf (fire (run mk (lockWrite s device action).2 ops) i) other
            = recordOf (run mk (lockWrite s device action).2 ops) other
        ∧ (lockRead mk (fire (run mk (lockWrite s device action).2 ops) i) other).1
            = (lockRead mk (run mk (lockWrite s device action).2 ops) other).1 := by
  have hw : recordOf (lockWrite s device action).2 other = recordOf s other := by
    obtain ⟨f1, f2⟩ := step_frame mk s (Op.write device action) other.guid h
      (by simp [Op.target, hne])
    exact recordOf_eq_of_frame s _ other f1 f2
  refine ⟨hw, lockRead_eq_of_recordOf mk s _ other hw,
    lockWrite_pending_cases s device action, ?_⟩
  intro ops i t hi hg
  have hwf : WF (run mk (lockWrite s device action).2 ops) :=
    wf_run mk ops _ (wf_lockWrite s device action h)
  have hf : recordOf (fire (run mk (lockWrite s device action).2 ops) i) other
      = recordOf (run mk (lockWrite s device action).2 ops) other := by
    obtain ⟨f1, f2⟩ := step_frame mk (run mk (lockWrite s device action).2 ops) (Op.fire i)
      other.guid hwf (by simp only [Op.target, hi, Option.map_some', hg]; simp [hne])
    exact recordOf_eq_of_frame _ _ other f1 f2
  exact ⟨hf, lockRead_eq_of_recordOf mk _ _ other hf⟩

theorem lockWrite_isolation_witness :
    recordOf (lockWrite State.empty devA "pulseUnlock").2 devB = recordOf State.empty devB
    ∧ (lockRead plainReading (lockWrite State.empty devA "pulseUnlock").2 devB).1
        = (lockRead plainReading State.empty devB).1
    ∧ ((lockWrite State.empty devA "pulseUnlock").2.pending = State.empty.pending
        ∨ ∃ t : Deferred, t.guid = devA.guid
            ∧ (lockWrite State.empty devA "pulseUnlock").2.pending
                = State.empty.pending ++ [t])
    ∧ ∀ (ops : List Op) (i : Nat) (t : Deferred),
        (run plainReading (lockWrite State.empty devA "pulseUnlock").2 ops).pending.get? i
            = some t →
        t.guid = devA.guid →
        recordOf (fire (run plainReading (lockWrite State.empty devA "pulseUnlock").2 ops) i)
            devB
            = recordOf (run plainReading (lockWrite State.empty devA "pulseUnlock").2 ops) devB
        ∧ (lockRead plainReading
            (fire (run plainReading (lockWrite State.empty devA "pulseUnlock").2 ops) i) devB).1
            = (lockRead plainReading
                (run plainReading (lockWrite State.empty devA "pulseUnlock").2 ops) devB).1 :=
  lockWrite_isolation plainReading State.empty devA devB "pulseUnlock" wf_empty (by decide)

/-! ## The status invariant of reachable states -/

theorem heapOk_setLockStatus (s : State) (g : String) (d : Option Nat) (status : String)
    (h : HeapOk s) (hs : status = "locked" ∨ status = "unlocked_electrically") :
    HeapOk (setLockStatus s g d status) := by
  intro r hr
  cases d with
  | none =>
    simp only [setLockStatus, storeNew, upd] at hr ⊢
    split
    · rcases hs with hs | hs <;> simp [newRecord, hs]
    · next hne => exact h r (by omega)
  | some r0 =>
    simp only [setLockStatus, assignStatus, upd] at hr ⊢
    split
    · rcases hs with hs | hs <;> simp [hs, upd_same]
    · exact h r hr

theorem heapOk_lockWrite (s : State) (device : Device) (action : String) (h : HeapOk s) :
    HeapOk (lockWrite s device action).2 := by
  unfold lockWrite
  simp only
  split
  · exact heapOk_setLockStatus _ _ _ _ h (Or.inl rfl)
  split
  · exact heapOk_setLockStatus _ _ _ _ h (Or.inr rfl)
  split
  · exact heapOk_setLockStatus _ _ _ _ h (Or.inr rfl)
  · exact h

theorem heapOk_fire (s : State) (i : Nat) (h : HeapOk s) : HeapOk (fire s i) := by
  unfold fire
  split
  · exact h
  · exact heapOk_setLockStatus _ _ _ _ h (Or.inl rfl)

theorem heapOk_step {R E : Type} (mk : String → String → Except E R) (s : State) (op : Op)
    (h : HeapOk s) : HeapOk (step mk s op) := by
  cases op with
  | write device action => exact heapOk_lockWrite s device action h
  | read device => simp only [step, lockRead_state]; exact h
  | fire i => exact heapOk_fire s i h

theorem heapOk_run {R E : Type} (mk : String → String → Except E R) (ops : List Op) :
    ∀ s, HeapOk s → HeapOk (run mk s ops) := by
  induction ops with
  | nil => intro s h; exact h
  | cons op rest ih => intro s h; exact ih _ (heapOk_step mk s op h)

theorem heapOk_empty : HeapOk State.empty := by
  intro r hr
  simp [State.empty] at hr

/-- C10: in every state reached from the empty store by writes (any action
strings), reads and goroutine firings, every stored record has a `lockStatus`
field holding the string `locked` or `unlocked_electrically`; so `lockRead`
never panics on its type assertion and reports one of these two statuses. -/
theorem reachable_status_valid {R E : Type} (mk : String → String → Except E R)
    (ops : List Op) :
    (∀ (device : Device) (rec : Record),
        recordOf (run mk State.empty ops) device = some rec →
        rec "lockStatus" = some (Value.str "locked")
        ∨ rec "lockStatus" = some (Value.str "unlocked_electrically"))
    ∧ ∀ device : Device,
        (lockRead mk (run mk State.empty ops) device).1 ≠ ReadResult.panic
        ∧ ((lockRead mk (run mk State.empty ops) device).1 = reportStatus mk "locked"
          ∨ (lockRead mk (run mk State.empty ops) device).1
              = reportStatus mk "unlocked_electrically") := by
  have hwf := wf_run mk ops State.empty wf_empty
  have hok := heapOk_run mk ops State.empty heapOk_empty
  have hrec : ∀ (device : Device) (rec : Record),
      recordOf (run mk State.empty ops) device = some rec →
      rec "lockStatus" = some (Value.str "locked")
      ∨ rec "lockStatus" = some (Value.str "unlocked_electrically") := by
    intro device rec hr
    unfold recordOf at hr
    cases hd : (run mk State.empty ops).deviceState device.guid with
    | none => rw [hd] at hr; simp at hr
    | some r =>
      rw [hd] at hr
      simp only [Option.map_some', Option.some.injEq] at hr
      subst hr
      exact hok r (hwf.store_lt _ _ hd)
  refine ⟨hrec, ?_⟩
  intro device
  have hcases : (lockRead mk (run mk State.empty ops) device).1 = reportStatus mk "locked"
      ∨ (lockRead mk (run mk State.empty ops) device).1
          = reportStatus mk "unlocked_electrically" := by
    unfold lockRead
    rw [storedLockStatus_eq_recordOf]
    cases hr : recordOf (run mk State.empty ops) device with
    | none => left; simp [statusLock]
    | some rec =>
      rcases hrec device rec hr with h | h
      · left; simp [h]
      · right; simp [h]
  refine ⟨?_, hcases⟩
  rcases hcases with h | h <;>
  · rw [h]; unfold reportStatus; split <;> simp

theorem reachable_status_valid_witness :
    recordOf (run plainReading State.empty [Op.write devA "unlock"]) devA
        = some ((run plainReading State.empty [Op.write devA "unlock"]).heap 0)
    ∧ ((run plainReading State.empty [Op.write devA "unlock"]).heap 0 "lockStatus"
          = some (Value.str "locked")
      ∨ (run plainReading State.empty [Op.write devA "unlock"]).heap 0 "lockStatus"
          = some (Value.str "unlocked_electrically")) :=
  ⟨rfl, (reachable_status_valid plainReading [Op.write devA "unlock"]).1 devA
      ((run plainReading State.empty [Op.write devA "unlock"]).heap 0) rfl⟩

/-! ## The goroutine acts on the `dState, ok` read at write time -/

/-- C6: evaluation of the handlers on a reachable execution in which a pending
goroutine of the device fires and the read that follows does not report
`locked`.  After two `pulseUnlock` writes, the firing of the first goroutine
and an `unlock` write, the second goroutine is pending (it captured map
object 0, while the device's entry is map object 1); it fires, and `lockRead`
reports `unlocked_electrically`. -/
theorem fire_stale_map_read_unlocked :
    (run plainReading State.empty staleOps).pending.get? 0 = some ⟨"guid-a", some 0, 5⟩
    ∧ (run plainReading State.empty staleOps).deviceState "guid-a" = some 1
    ∧ (lockRead plainReading (fire (run plainReading State.empty staleOps) 0) devA).1
        = ReadResult.ok [("lock.status", "unlocked_electrically")] := by
  decide

/-- C9: evaluation of the goroutine on the same reachable state.  At fire time
the device has a record (map object 1, status `unlocked_electrically`); the
goroutine writes `locked` into the map object 0 it captured at write time, so
the stored record keeps `unlocked_electrically`; with the very same store,
a goroutine holding the device's current entry makes it `locked`: the outcome
depends on the captured `dState, ok`, not on the store at fire time alone. -/
theorem fire_uses_write_time_dState :
    (recordOf (run plainReading State.empty staleOps) devA).map (fun rec => rec "lockStatus")
        = some (some (Value.str "unlocked_electrically"))
    ∧ (recordOf (fire (run plainReading State.empty staleOps) 0) devA).map
          (fun rec => rec "lockStatus")
        = some (some (Value.str "unlocked_electrically"))
    ∧ (fire (run plainReading State.empty staleOps) 0).heap 0 "lockStatus"
        = some (Value.str "locked")
    ∧ (recordOf (fire { run plainReading State.empty staleOps with
            pending := [⟨"guid-a", (run plainReading State.empty staleOps).deviceState "guid-a", 5⟩] }
          0) devA).map (fun rec => rec "lockStatus")
        = some (some (Value.str "locked")) := by
  decide

/-! ## Setup actions -/

/-- C7: each of the ten setup actions is filtered on exactly its own
device-type tag, builds the emitter of its row of the specification's table
(strategy, bounds, seed), registers it under the device's ID and returns the
result of the registration unchanged; read as records, the emitters built
carry exactly the table's strategy, bounds and seed; and every bound pair, in
the table and in the emitters the actions register, has its lower bound at
most its upper bound. -/
theorem setup_actions_match_table {Em Reg : Type} (utils : EmitterAPI Em Reg) (reg : Reg)
    (d : Device) :
    (setupActions Em Reg).map (fun a => (a.Filter, a.Action utils reg d))
      = specTable.map (fun row =>
          ([("type", [row.deviceType])], utils.SetEmitter reg d.id (specEmitter utils row)))
    ∧ (setupActions ValueEmitter (List (String × ValueEmitter))).map
          (fun a => a.Action recordUtils [] d)
      = specTable.map (fun row =>
          (none, [(d.id, ({ strategyKind := row.strategy
                            lowerBound := row.bounds.map Prod.fst
                            upperBound := row.bounds.map Prod.snd
                            seed := row.seed } : ValueEmitter))]))
    ∧ specTable.all (fun row =>
        match row.bounds with
        | none => true
        | some (lo, hi) => decide (lo ≤ hi)) = true
    ∧ (setupActions ValueEmitter (List (String × ValueEmitter))).all
        (fun a => ((a.Action recordUtils [] d).2.all (fun p => boundsOrdered p.2))) = true := by
  refine ⟨rfl, rfl, by decide, by rfl⟩

end LockEmu
